import Mathlib

/-!
# Verification of the plan_to_podcast voice pipeline

A shallow embedding of the voice-sample ingestion pipeline, voice registry
and script-to-speech adapter of the `plan_to_podcast` repository
(`src/voice_manager.py`, `src/step_tts.py`), together with theorems that
settle the frozen claims about the natural-language specification.

Modelling conventions:
* audio samples are rationals (`ℚ`); a waveform is a list of channels,
  each a list of samples (mirroring a 2-D `torch` tensor of shape
  `(channels, samples)`);
* external effects (`torchaudio.load`/`save`, the resampler, the JSON
  store write, `os.path.exists`) are supplied as an explicit environment
  record so every code path of the Python source is a pure branch here;
* NumPy's per-frame RMS (`sqrt` of the mean square) is only ever used in
  the comparison `rms > 0.01 * max(rms)`; since `sqrt` is strictly
  monotone on nonnegative reals this comparison is equivalent to
  `meanSq > 0.0001 * max(meanSq)`, which is how it is phrased below so
  that everything stays inside `ℚ` and is executable;
* progress messages and outcome messages are formatted strings in Python
  (they interpolate floats); they are embedded as inductive tags carrying
  the same branch information, with the same percentages.
-/

/-- One sample channel / one mono signal. -/
abbrev Chan := List ℚ

/-- A waveform: list of channels (rows of the torch tensor). -/
abbrev Waveform := List Chan

/-- `waveform.shape[1]`: the per-channel sample count (tensors are
rectangular; row 0 is representative). -/
def numSamples (w : Waveform) : ℕ := (w.headD []).length

/-- `waveform.abs().max().item()` — the peak absolute amplitude over all
channels.  NumPy/torch `max` over a nonempty tensor; `0` is returned for
the (upstream-rejected) empty tensor. -/
def maxAbs (w : Waveform) : ℚ := (w.flatten.map (fun x => |x|)).foldr max 0

/-- `torch.mean(waveform, dim=0)`: average the channels pointwise. -/
def meanChannels (w : Waveform) : Chan :=
  (List.range (numSamples w)).map
    (fun i => ((w.map (fun ch => ch.getD i 0)).sum) / (w.length : ℚ))

/-- `waveform / m` : divide every sample by `m`. -/
def divEach (w : Waveform) (m : ℚ) : Waveform := w.map (List.map (fun x => x / m))

/-- Sum of squares of a frame (`np.square` then summation). -/
def sumSq (l : List ℚ) : ℚ := (l.map (fun x => x * x)).sum

/-- `audio_np.reshape(-1, 1024)` : cut the flattened signal into
contiguous blocks of 1024 samples.  (NumPy raises unless the total sample
count is a multiple of 1024; the caller guards for that.) -/
def toFrames : List ℚ → List (List ℚ)
  | [] => []
  | l@(_ :: _) => l.take 1024 :: toFrames (l.drop 1024)
termination_by l => l.length
decreasing_by simp_all [List.length_drop]; omega

/-- The squared per-frame RMS values
(`np.mean(np.square(reshape(-1,1024)), axis=1)`, squared). -/
def rmsSqList (row : List ℚ) : List ℚ := (toFrames row).map (fun f => sumSq f / 1024)

/-- Squared maximum frame RMS (`np.max(rms)`, squared). -/
def maxRmsSq (row : List ℚ) : ℚ := (rmsSqList row).foldr max 0

/-- `rms > 0.01 * np.max(rms)` per frame, phrased on squares:
`rms_i > 0.01·max ↔ rmsSq_i > 0.0001·maxSq` (both sides nonnegative). -/
def nonSilentMask (row : List ℚ) : List Bool :=
  (rmsSqList row).map (fun r => decide (maxRmsSq row / 10000 < r))

/-- Which branch the silence-trimming `try` block of
`process_audio_file` took. -/
inductive TrimNote
  /-- frames found above threshold; waveform sliced -/
  | trimmed
  /-- `np.any` was false: "No non-silent parts found, using full audio" -/
  | noNonSilent
  /-- the block raised (e.g. `reshape(-1,1024)` on a sample count that is
  not a multiple of 1024) and the exception handler kept the full audio -/
  | failed
deriving DecidableEq

/-- The silence-trimming step (`voice_manager.py` lines 108–144).
Frames are contiguous 1024-blocks of the flattened tensor; frame indices
are converted back to sample indices with `hop_length = 512`; the kept
slice is `[first*512, min((last+1)*512, shape[1]))` applied to every
channel.  If the reshape is impossible (sample count not a multiple of
1024, or nothing to take a max over) the exception handler returns the
waveform unchanged. -/
def trimSilence (w : Waveform) : Waveform × TrimNote :=
  let n := w.flatten.length
  if ¬ (1024 ∣ n) ∨ n = 0 then (w, .failed)
  else
    let mask := nonSilentMask w.flatten
    if mask.any id then
      let first := mask.findIdx id
      let last := mask.length - mask.reverse.findIdx id - 1
      let start := first * 512
      let stop := min ((last + 1) * 512) (numSamples w)
      (w.map (fun ch => (ch.drop start).take (stop - start)), .trimmed)
    else (w, .noNonSilent)

/-- One registry entry (`voices_info["voices"][id]`).  The `created`
timestamp and the numeric `stats` sub-dictionary are never read back by
any modelled operation and are elided. -/
structure VoiceRecord where
  name : String
  description : String
  type : String
  path : Option String
  sourceFile : Option String
deriving DecidableEq

/-- The in-memory registry: the `id → record` mapping (a Python dict,
embedded as an association list in insertion order). -/
abbrev Registry := List (String × VoiceRecord)

/-- The filesystem: written audio files, path ↦ (waveform, sample rate). -/
abbrev FS := List (String × (Waveform × ℕ))

/-- The registry `_load_voices_info` initializes when no store exists:
just the default voice, which has no `path` key. -/
def defaultRegistry : Registry :=
  [("default", ⟨"Default Voice", "Default TTS voice", "default", none, none⟩)]

def fsWrite (fs : FS) (p : String) (v : Waveform × ℕ) : FS :=
  (p, v) :: fs.filter (fun e => e.1 ≠ p)

/-- `path.unlink()` / `os.remove`. -/
def fsErase (fs : FS) (p : String) : FS := fs.filter (fun e => e.1 ≠ p)

/-- `voice_name in self.voices_info["voices"]`. -/
def regHas (reg : Registry) (id : String) : Bool := (reg.lookup id).isSome

/-- `re.match(r'^[a-zA-Z0-9_-]+$', voice_name)`. -/
def validName (s : String) : Bool :=
  !s.isEmpty && s.toList.all (fun c => c.isAlphanum || c == '_' || c == '-')

/-- Python `str.strip()`: drop leading and trailing whitespace.  (Python
strips a slightly larger Unicode whitespace class; they agree on the
ASCII whitespace relevant here.) -/
def pyStrip (s : String) : String :=
  String.mk (((s.toList.dropWhile Char.isWhitespace).reverse.dropWhile
    Char.isWhitespace).reverse)

/-- `os.path.basename`. -/
def basename (p : String) : String := ((p.splitOn "/").getLast?).getD p

/-- `self.voices_dir / f"{voice_name}.wav"` with the default voices dir. -/
def voicePathOf (name : String) : String := "/workspace/voices/" ++ name ++ ".wav"

/-- The outcome message of `process_audio_file` — one tag per `return`
site of the Python function (the formatted strings interpolate floats and
exception texts, elided here). -/
inductive IngestMsg
  | fileNotFound | emptyName | invalidNameChars | duplicateName
  | loadFailed | emptyAudio | invalidValues | tooShort | tooLong
  | tooQuiet | resampleFailed | saveFailed | verifyFailed | dbSaveFailed
  | ingested
deriving DecidableEq

/-- Progress-trace notes; one tag per `progress_updates.append` site. -/
inductive Note
  | validating | loadedDuration | srChannels
  | convertingMono | convertedMono | levelsHigh
  | resampling | resampled | normalizing
  | trimmingSilence | trimmedAmounts | noNonSilentParts | trimWarning
  | savingAudio | audioSaved | verifiedSaved
  | updatingDb | dbUpdated | complete
deriving DecidableEq

/-- Result triple of `process_audio_file`: `(success, message, trace)`. -/
structure IngestResult where
  success : Bool
  msg : IngestMsg
  trace : List (ℕ × Note)
deriving DecidableEq

/-- The external world of one `process_audio_file` call: outcomes of the
filesystem probe, the `torchaudio` calls, the band-limited resampler and
the JSON store write.  `none` models a raised exception. -/
structure IngestEnv where
  /-- `os.path.exists(file_path)` -/
  fileExists : Bool
  /-- `torchaudio.load(file_path)`; `none` = raised -/
  loadResult : Option (Waveform × ℕ)
  /-- `torch.isnan(waveform).any() or torch.isinf(waveform).any()` —
  NaN/Inf are not representable in `ℚ`, so their presence is a flag -/
  hasInvalidValues : Bool
  /-- `torchaudio.transforms.Resample(sr, 24000)` applied to the
  waveform; `none` = raised -/
  resample : ℕ → Waveform → Option Waveform
  /-- `torchaudio.save` succeeded -/
  saveOk : Bool
  /-- re-`load` of the just-saved file, as a function of what was
  written; `none` = raised -/
  verifyLoad : Waveform → Option (Waveform × ℕ)
  /-- `self._save_voices_info()` succeeded -/
  dbSaveOk : Bool

/-- Lines 146–224 of `process_audio_file`: save, verify, register,
persist.  `w` is the processed waveform, `t` the trace so far
(ending with the trim note and `(80, saving)` appended by the caller). -/
def saveStage (env : IngestEnv) (reg : Registry) (fs : FS)
    (file_path name : String) (w : Waveform) (t : List (ℕ × Note)) :
    IngestResult × Registry × FS :=
  let vpath := voicePathOf name
  if ¬ env.saveOk then (⟨false, .saveFailed, t⟩, reg, fs)
  else
    let fs₁ := fsWrite fs vpath (w, 24000)
    let t₁ := t ++ [(85, Note.audioSaved)]
    match env.verifyLoad w with
    | none => (⟨false, .verifyFailed, t₁⟩, reg, fsErase fs₁ vpath)
    | some (tw, tsr) =>
      if tsr ≠ 24000 ∨ (tw.length, numSamples tw) ≠ (w.length, numSamples w) then
        (⟨false, .verifyFailed, t₁⟩, reg, fsErase fs₁ vpath)
      else
        let t₂ := t₁ ++ [(87, Note.verifiedSaved), (90, Note.updatingDb)]
        let rec₀ : VoiceRecord :=
          ⟨name, "Cloned voice from " ++ basename file_path, "cloned",
            some vpath, some (basename file_path)⟩
        let reg₁ := reg ++ [(name, rec₀)]
        if ¬ env.dbSaveOk then
          -- the written file is unlinked, but the in-memory dict insert
          -- performed two lines above is NOT rolled back (lines 193–202)
          (⟨false, .dbSaveFailed, t₂⟩, reg₁, fsErase fs₁ vpath)
        else
          (⟨true, .ingested, t₂ ++ [(95, Note.dbUpdated), (100, Note.complete)]⟩,
            reg₁, fs₁)

/-- Lines 104–147: peak-normalize, trim silence, fall through to save. -/
def normalizeStage (env : IngestEnv) (reg : Registry) (fs : FS)
    (file_path name : String) (w : Waveform) (t : List (ℕ × Note)) :
    IngestResult × Registry × FS :=
  let w₁ := divEach w (maxAbs w)
  let pr := trimSilence w₁
  let tn : ℕ × Note :=
    match pr.2 with
    | .trimmed => (65, .trimmedAmounts)
    | .noNonSilent => (65, .noNonSilentParts)
    | .failed => (60, .trimWarning)
  saveStage env reg fs file_path name pr.1
    (t ++ [(50, Note.normalizing), (60, Note.trimmingSilence), tn, (80, Note.savingAudio)])

/-- Lines 94–102: resample to 24 kHz when needed, fall through. -/
def resampleStage (env : IngestEnv) (reg : Registry) (fs : FS)
    (file_path name : String) (w : Waveform) (sr : ℕ) (t : List (ℕ × Note)) :
    IngestResult × Registry × FS :=
  if sr ≠ 24000 then
    match env.resample sr w with
    | none => (⟨false, .resampleFailed, []⟩, reg, fs)
    | some w₁ =>
      normalizeStage env reg fs file_path name w₁
        (t ++ [(35, Note.resampling), (40, Note.resampled)])
  else normalizeStage env reg fs file_path name w t

/-- `VoiceManager.process_audio_file` (`voice_manager.py` lines 38–224),
as a pure function of the environment, the in-memory registry, the
filesystem and the two string arguments.  Validation failures return the
empty trace exactly as the Python `return` statements do. -/
def process_audio_file (env : IngestEnv) (reg : Registry) (fs : FS)
    (file_path voice_name : String) : IngestResult × Registry × FS :=
  if file_path = "" ∨ env.fileExists = false then
    (⟨false, .fileNotFound, []⟩, reg, fs)
  else if pyStrip voice_name = "" then (⟨false, .emptyName, []⟩, reg, fs)
  else
    let name := pyStrip voice_name
    if ¬ validName name then (⟨false, .invalidNameChars, []⟩, reg, fs)
    else if regHas reg name then (⟨false, .duplicateName, []⟩, reg, fs)
    else
      match env.loadResult with
      | none => (⟨false, .loadFailed, []⟩, reg, fs)
      | some (w, sr) =>
        if w.flatten.length = 0 then (⟨false, .emptyAudio, []⟩, reg, fs)
        else if env.hasInvalidValues then (⟨false, .invalidValues, []⟩, reg, fs)
        else
          let duration : ℚ := (numSamples w : ℚ) / (sr : ℚ)
          if duration < 5 then (⟨false, .tooShort, []⟩, reg, fs)
          else if 300 < duration then (⟨false, .tooLong, []⟩, reg, fs)
          else
            let t₀ : List (ℕ × Note) :=
              [(5, .validating), (10, .loadedDuration), (15, .srChannels)]
            let w₁ := if 1 < w.length then [meanChannels w] else w
            let t₁ := if 1 < w.length
              then t₀ ++ [(20, Note.convertingMono), (25, Note.convertedMono)]
              else t₀
            let maxAmp := maxAbs w₁
            if maxAmp < 1/100 then (⟨false, .tooQuiet, []⟩, reg, fs)
            else
              let t₂ := if 1 < maxAmp then t₁ ++ [(30, Note.levelsHigh)] else t₁
              resampleStage env reg fs file_path name w₁ sr t₂

/-- `VoiceManager.get_voice_path` (lines 249–253):
`voices[id].get("path")` for a known id, else `None`. -/
def get_voice_path (reg : Registry) (voice_id : String) : Option String :=
  match reg.lookup voice_id with
  | some r => r.path
  | none => none

/-- Outcome message of `delete_voice`, one tag per `return` site. -/
inductive DeleteMsg
  | notFound | cannotDeleteDefault | deleted | errorDeleting
deriving DecidableEq

/-- `VoiceManager.delete_voice` (lines 255–279).  `osRemoveOk` is whether
`os.remove` succeeded (its failure is swallowed); `dbSaveOk` is whether
`_save_voices_info` succeeded (its exception reaches the outer handler
AFTER the in-memory `del` has happened). -/
def delete_voice (osRemoveOk dbSaveOk : Bool) (reg : Registry) (fs : FS)
    (voice_id : String) : (Bool × DeleteMsg) × Registry × FS :=
  match reg.lookup voice_id with
  | none => ((false, .notFound), reg, fs)
  | some r =>
    if r.type = "default" then ((false, .cannotDeleteDefault), reg, fs)
    else
      let fs₁ := match r.path with
        | some p => if osRemoveOk then fsErase fs p else fs
        | none => fs
      let reg₁ := reg.filter (fun e => e.1 ≠ voice_id)
      if dbSaveOk then ((true, .deleted), reg₁, fs₁)
      else ((false, .errorDeleting), reg₁, fs₁)

/-!
## Script-to-speech adapter (`step_tts.py`)

`podcast_tts` parses turns with
`re.findall(r"<\|(.*?)\|>: (.*?)(?:\n\n|$)", text.strip())`.
The lazy groups use `.`, which does not match a newline, so:
* the speaker group is the shortest newline-free run followed by the
  literal `|>: `;
* the utterance group is the shortest newline-free run followed by a
  blank line (`\n\n`) or the end of the input (Python `$` also matches
  just before one trailing newline);
* on a failed match the scan restarts one character later; on a success
  it resumes after the consumed match.
-/

/-- Match `(.*?)\|>: ` — the shortest newline-free capture before the
literal terminator, returning the capture and the remainder. -/
def findSpeakerEnd : List Char → Option (List Char × List Char)
  | [] => none
  | '|' :: '>' :: ':' :: ' ' :: rest => some ([], rest)
  | '\n' :: _ => none
  | c :: rest => (findSpeakerEnd rest).map (fun p => (c :: p.1, p.2))

/-- Match `(.*?)(?:\n\n|$)` — the shortest newline-free capture before a
blank line or the end of input. -/
def findUtteranceEnd : List Char → Option (List Char × List Char)
  | [] => some ([], [])
  | '\n' :: '\n' :: rest => some ([], rest)
  | ['\n'] => some ([], [])
  | '\n' :: _ => none
  | c :: rest => (findUtteranceEnd rest).map (fun p => (c :: p.1, p.2))

/-- One attempt of the full pattern at the current position. -/
def matchTurn : List Char → Option ((List Char × List Char) × List Char)
  | '<' :: '|' :: rest =>
    match findSpeakerEnd rest with
    | none => none
    | some (spk, r₁) =>
      match findUtteranceEnd r₁ with
      | none => none
      | some (utt, r₂) => some ((spk, utt), r₂)
  | _ => none

/-- The `re.findall` scan.  Each iteration either consumes a whole match
(at least 6 characters) or advances one character, so `length + 1` units
of fuel always suffice. -/
def scanTurns : ℕ → List Char → List (List Char × List Char)
  | 0, _ => []
  | fuel + 1, l =>
    match matchTurn l with
    | some (p, rest) => p :: scanTurns fuel rest
    | none =>
      match l with
      | [] => []
      | _ :: tl => scanTurns fuel tl

/-- `re.findall(pattern, string=text)` for the turn pattern. -/
def parseTurns (s : String) : List (String × String) :=
  (scanTurns (s.toList.length + 1) s.toList).map
    (fun p => (String.mk p.1, String.mk p.2))

/-- The exceptions `podcast_tts` can raise internally.  Python carries
`set(non_matching_hosts)` in the message, hence a `Finset`. -/
inductive RenderErr
  | noTurnsFound
  | unknownSpeakers (names : Finset String)
deriving DecidableEq

/-- Lines 113–163 of `podcast_tts`, up to the `except` handler: parse,
validate speakers, synthesize each turn followed by a 0.5 s pause
(12000 zero samples), concatenate.  The TTS engine is the external
collaborator `tts : text → optional reference path → samples` (its own
failures are caught inside `StepTTS.tts`, which returns silence, so it
never raises here). -/
def renderBody (tts : String → Option String → List ℚ) (reg : Registry)
    (text : String) (hostVoices : List (String × String)) :
    Except RenderErr ((ℕ × List ℚ) × String) :=
  let turns := parseTurns (pyStrip text)
  if turns = [] then .error .noTurnsFound
  else if ¬ (turns.all (fun t => (hostVoices.lookup t.1).isSome)) then
    .error (.unknownSpeakers
      (((turns.map Prod.fst).filter
        (fun s => (hostVoices.lookup s).isNone)).toFinset))
  else
    let segments := turns.map (fun t =>
      tts t.2 (get_voice_path reg ((hostVoices.lookup t.1).getD ""))
        ++ List.replicate 12000 (0 : ℚ))
    let tokens := "\n\n".intercalate (turns.map (fun t => t.2 ++ "\n" ++ t.1))
    .ok ((24000, segments.flatten), tokens)

/-- `podcast_tts` (lines 111–169): any internal exception is caught and
replaced by 3 seconds of silence (72000 zero samples at 24000 Hz) plus an
error message (kept structured here, since Python's `str(set)` rendering
is unordered). -/
def podcast_tts (tts : String → Option String → List ℚ) (reg : Registry)
    (text : String) (hostVoices : List (String × String)) :
    (ℕ × List ℚ) × Except RenderErr String :=
  match renderBody tts reg text hostVoices with
  | .ok (audio, tokens) => (audio, .ok tokens)
  | .error e => ((24000, List.replicate 72000 (0 : ℚ)), .error e)

/-! ## Helper lemmas about folds, frames and association lists -/

section Helpers

lemma foldr_max_replicate (n : ℕ) (a b : ℚ) :
    (List.replicate n a).foldr max b = if n = 0 then b else max a b := by
  induction n with
  | zero => simp
  | succ m ih =>
    simp only [List.replicate_succ, List.foldr_cons, ih]
    rcases Nat.eq_zero_or_pos m with h | h
    · simp [h]
    · simp only [Nat.pos_iff_ne_zero.mp h, if_false, if_neg (Nat.succ_ne_zero m)]
      rw [← max_assoc, max_self]

lemma le_foldr_max {l : List ℚ} {a : ℚ} (b : ℚ) (h : a ∈ l) : a ≤ l.foldr max b := by
  induction l with
  | nil => cases h
  | cons x t ih =>
    rcases List.mem_cons.mp h with rfl | h'
    · exact le_max_left _ _
    · exact le_trans (ih h') (le_max_right _ _)

lemma foldr_max_le {l : List ℚ} {b c : ℚ} (hb : b ≤ c) (h : ∀ a ∈ l, a ≤ c) :
    l.foldr max b ≤ c := by
  induction l with
  | nil => exact hb
  | cons x t ih =>
    exact max_le (h x (List.mem_cons_self x t))
      (ih (fun a ha => h a (List.mem_cons_of_mem x ha)))

lemma b_le_foldr_max (l : List ℚ) (b : ℚ) : b ≤ l.foldr max b := by
  induction l with
  | nil => exact le_refl b
  | cons x t ih => exact le_trans ih (le_max_right _ _)

lemma foldr_max_eq_or_mem (l : List ℚ) (b : ℚ) :
    l.foldr max b = b ∨ l.foldr max b ∈ l := by
  induction l with
  | nil => exact Or.inl rfl
  | cons x t ih =>
    simp only [List.foldr_cons]
    rcases le_total x (t.foldr max b) with h | h
    · rw [max_eq_right h]
      rcases ih with h' | h'
      · exact Or.inl h'
      · exact Or.inr (List.mem_cons_of_mem x h')
    · rw [max_eq_left h]
      exact Or.inr (List.mem_cons_self x t)

lemma sumSq_nonneg (l : List ℚ) : 0 ≤ sumSq l := by
  apply List.sum_nonneg
  intro x hx
  obtain ⟨y, _, rfl⟩ := List.mem_map.mp hx
  exact mul_self_nonneg y

lemma sq_le_sumSq {l : List ℚ} {x : ℚ} (h : x ∈ l) : x * x ≤ sumSq l := by
  refine List.single_le_sum (fun y hy => ?_) (x * x) (List.mem_map_of_mem _ h)
  obtain ⟨z, _, rfl⟩ := List.mem_map.mp hy
  exact mul_self_nonneg z

lemma sumSq_replicate (n : ℕ) (x : ℚ) : sumSq (List.replicate n x) = n * (x * x) := by
  simp [sumSq, List.map_replicate, List.sum_replicate, nsmul_eq_mul]

lemma sumSq_append (l₁ l₂ : List ℚ) : sumSq (l₁ ++ l₂) = sumSq l₁ + sumSq l₂ := by
  simp [sumSq]

lemma toFrames_nil : toFrames [] = [] := by rw [toFrames.eq_def]

lemma toFrames_cons_eq (l : List ℚ) (h : l ≠ []) :
    toFrames l = l.take 1024 :: toFrames (l.drop 1024) := by
  rw [toFrames.eq_def]
  cases l with
  | nil => exact absurd rfl h
  | cons a t => rfl

lemma toFrames_append {xs : List ℚ} (rest : List ℚ) (h : xs.length = 1024) :
    toFrames (xs ++ rest) = xs :: toFrames rest := by
  have hne : xs ++ rest ≠ [] := by
    intro he
    have := congrArg List.length he
    simp [h] at this
  rw [toFrames_cons_eq _ hne, ← h, List.take_left, List.drop_left]

lemma toFrames_eq_single {xs : List ℚ} (h : xs.length = 1024) : toFrames xs = [xs] := by
  have := toFrames_append [] h
  simpa [toFrames_nil] using this

lemma toFrames_replicate_append (k : ℕ) (x : ℚ) (rest : List ℚ) :
    toFrames (List.replicate (k * 1024) x ++ rest)
      = List.replicate k (List.replicate 1024 x) ++ toFrames rest := by
  induction k with
  | zero => simp only [Nat.zero_mul, List.replicate_zero, List.nil_append]
  | succ m ih =>
    have hsplit : List.replicate ((m + 1) * 1024) x
        = List.replicate 1024 x ++ List.replicate (m * 1024) x := by
      rw [← List.replicate_add]
      congr 1
      ring
    rw [hsplit, List.append_assoc, toFrames_append _ (List.length_replicate 1024 x), ih,
      ← List.cons_append, ← List.replicate_succ]

lemma flatten_toFrames (l : List ℚ) : (toFrames l).flatten = l := by
  induction l using toFrames.induct with
  | case1 => simp [toFrames_nil]
  | case2 a t ih =>
    rw [toFrames.eq_def]
    simp only [List.flatten_cons]
    rw [ih, List.take_append_drop]

lemma mem_toFrames {l : List ℚ} {x : ℚ} (h : x ∈ l) : ∃ f ∈ toFrames l, x ∈ f := by
  have : x ∈ (toFrames l).flatten := (flatten_toFrames l).symm ▸ h
  exact List.mem_flatten.mp this

lemma toFrames_length_1024 {l : List ℚ} (hdvd : 1024 ∣ l.length) :
    ∀ f ∈ toFrames l, f.length = 1024 := by
  induction l using toFrames.induct with
  | case1 => simp [toFrames_nil]
  | case2 a t ih =>
    intro f hf
    have hlen : 1024 ≤ (a :: t).length := by
      rcases hdvd with ⟨c, hc⟩
      rcases Nat.eq_zero_or_pos c with rfl | hcpos
      · simp at hc
      · simp only [hc]
        calc 1024 = 1024 * 1 := by norm_num
        _ ≤ 1024 * c := Nat.mul_le_mul_left 1024 hcpos
    rw [toFrames_cons_eq _ (List.cons_ne_nil a t)] at hf
    rcases List.mem_cons.mp hf with rfl | hf'
    · simp only [List.length_take]
      omega
    · refine ih ?_ f hf'
      simp only [List.length_drop]
      exact Nat.dvd_sub' hdvd ⟨1, by norm_num⟩

end Helpers

section Helpers2

lemma findIdx_bool_spec (l : List Bool) (h : l.any id = true) :
    l.findIdx id < l.length ∧ l.getD (l.findIdx id) false = true ∧
      ∀ j < l.findIdx id, l.getD j false = false := by
  induction l with
  | nil => simp at h
  | cons b t ih =>
    cases b with
    | true =>
      refine ⟨by simp [List.findIdx_cons], by simp [List.findIdx_cons], ?_⟩
      intro j hj
      simp [List.findIdx_cons] at hj
    | false =>
      have ht : t.any id = true := by simpa using h
      obtain ⟨h₁, h₂, h₃⟩ := ih ht
      have hfi : (false :: t).findIdx id = t.findIdx id + 1 := by
        simp [List.findIdx_cons]
      refine ⟨by simpa [hfi] using Nat.succ_lt_succ h₁, by simpa [hfi] using h₂, ?_⟩
      intro j hj
      rw [hfi] at hj
      cases j with
      | zero => simp
      | succ j' => simpa using h₃ j' (Nat.lt_of_succ_lt_succ hj)

lemma getD_reverse (l : List Bool) (i : ℕ) (h : i < l.length) :
    l.reverse.getD i false = l.getD (l.length - 1 - i) false := by
  have h' : i < l.reverse.length := by simpa using h
  rw [List.getD_eq_getElem l.reverse false h',
    List.getD_eq_getElem l false (by omega), List.getElem_reverse]

lemma any_reverse (l : List Bool) : l.reverse.any id = l.any id := by
  simp

lemma lookup_cons_ne {α β : Type} [BEq α] [LawfulBEq α] (k : α) (e : α × β)
    (t : List (α × β)) (he : ¬ k = e.1) :
    List.lookup k (e :: t) = List.lookup k t := by
  have hbe : (k == e.1) = false := beq_eq_false_iff_ne.mpr he
  simp only [List.lookup, hbe]

lemma lookup_cons_eq {α β : Type} [BEq α] [LawfulBEq α] (k : α) (e : α × β)
    (t : List (α × β)) (he : k = e.1) :
    List.lookup k (e :: t) = some e.2 := by
  have hbe : (k == e.1) = true := beq_iff_eq.mpr he
  simp only [List.lookup, hbe]

lemma lookup_append_right {α β : Type} [BEq α] [LawfulBEq α]
    {l₁ l₂ : List (α × β)} {k : α}
    (h : l₁.lookup k = none) : (l₁ ++ l₂).lookup k = l₂.lookup k := by
  induction l₁ with
  | nil => rfl
  | cons e t ih =>
    by_cases he : k = e.1
    · rw [lookup_cons_eq k e t he] at h
      cases h
    · rw [lookup_cons_ne k e t he] at h
      rw [List.cons_append, lookup_cons_ne k e _ he]
      exact ih h

lemma lookup_filter_ne {α β : Type} [BEq α] [LawfulBEq α] [DecidableEq α]
    (l : List (α × β)) (k : α) :
    (l.filter (fun e => e.1 ≠ k)).lookup k = none := by
  induction l with
  | nil => rfl
  | cons e t ih =>
    by_cases he : e.1 = k
    · simpa [List.filter_cons, he] using ih
    · rw [List.filter_cons, if_pos (by simpa using he),
        lookup_cons_ne k e _ (fun hk => he hk.symm)]
      exact ih

lemma lookup_fsWrite_self (fs : FS) (p : String) (v : Waveform × ℕ) :
    (fsWrite fs p v).lookup p = some v := by
  rw [fsWrite, lookup_cons_eq p _ _ rfl]

lemma lookup_fsErase_self (fs : FS) (p : String) :
    (fsErase fs p).lookup p = none := lookup_filter_ne fs p

lemma maxAbs_nonneg (w : Waveform) : 0 ≤ maxAbs w := b_le_foldr_max _ _

lemma abs_le_maxAbs {w : Waveform} {x : ℚ} (h : x ∈ w.flatten) : |x| ≤ maxAbs w :=
  le_foldr_max 0 (List.mem_map_of_mem _ h)

lemma maxAbs_le {w : Waveform} {c : ℚ} (hc : 0 ≤ c)
    (h : ∀ x ∈ w.flatten, |x| ≤ c) : maxAbs w ≤ c := by
  refine foldr_max_le hc ?_
  intro a ha
  obtain ⟨y, hy, rfl⟩ := List.mem_map.mp ha
  exact h y hy

lemma maxAbs_attained {w : Waveform} (h : 0 < maxAbs w) :
    ∃ x ∈ w.flatten, |x| = maxAbs w := by
  rcases foldr_max_eq_or_mem (w.flatten.map (fun x => |x|)) 0 with h' | h'
  · rw [maxAbs] at h
    rw [h'] at h
    exact absurd h (lt_irrefl 0)
  · obtain ⟨y, hy, hyx⟩ := List.mem_map.mp h'
    exact ⟨y, hy, hyx⟩

lemma flatten_divEach (w : Waveform) (m : ℚ) :
    (divEach w m).flatten = w.flatten.map (fun x => x / m) := by
  rw [divEach, List.map_flatten]

lemma maxAbs_divEach_le_one (w : Waveform) :
    maxAbs (divEach w (maxAbs w)) ≤ 1 := by
  refine maxAbs_le zero_le_one ?_
  intro x hx
  rw [flatten_divEach] at hx
  obtain ⟨y, hy, rfl⟩ := List.mem_map.mp hx
  rcases eq_or_lt_of_le (maxAbs_nonneg w) with h0 | h0
  · have : |y| ≤ 0 := le_of_le_of_eq (abs_le_maxAbs hy) h0.symm
    have hy0 : y = 0 := abs_eq_zero.mp (le_antisymm this (abs_nonneg y))
    simp [hy0]
  · rw [abs_div, abs_of_pos h0, div_le_one h0]
    exact abs_le_maxAbs hy

lemma trimSilence_length (w : Waveform) : ((trimSilence w).1).length = w.length := by
  simp only [trimSilence]
  split
  · rfl
  · split
    · simp
    · rfl

lemma maxAbs_trimSilence_le (w : Waveform) : maxAbs (trimSilence w).1 ≤ maxAbs w := by
  simp only [trimSilence]
  split
  · exact le_refl _
  · split
    · refine maxAbs_le (maxAbs_nonneg w) ?_
      intro x hx
      obtain ⟨ch', hch', hxch'⟩ := List.mem_flatten.mp hx
      obtain ⟨ch, hch, rfl⟩ := List.mem_map.mp hch'
      have : x ∈ ch := List.mem_of_mem_drop (List.mem_of_mem_take hxch')
      exact abs_le_maxAbs (List.mem_flatten.mpr ⟨ch, hch, this⟩)
    · exact le_refl _

end Helpers2

/-! ## Claims C7, C8, C9 — registry operations -/

/-- C7: after adding a record, `get_voice_path` on its id returns exactly
the stored path; after a (successful) removal, `get_voice_path` returns
`none` and the backing file is gone from the filesystem; and
`get_voice_path` is `none` for every unknown id and for the default
voice (whose record stores no path). -/
theorem get_path_roundtrip :
    (∀ (reg : Registry) (fs : FS) (name p : String) (rec : VoiceRecord)
       (v : Waveform × ℕ),
      reg.lookup name = none → rec.path = some p → rec.type ≠ "default" →
      get_voice_path (reg ++ [(name, rec)]) name = some p ∧
      (delete_voice true true (reg ++ [(name, rec)]) (fsWrite fs p v) name).1
        = (true, .deleted) ∧
      get_voice_path
        (delete_voice true true (reg ++ [(name, rec)]) (fsWrite fs p v) name).2.1
        name = none ∧
      ((delete_voice true true (reg ++ [(name, rec)]) (fsWrite fs p v) name).2.2).lookup p
        = none) ∧
    (∀ (reg : Registry) (id : String),
      reg.lookup id = none → get_voice_path reg id = none) ∧
    get_voice_path defaultRegistry "default" = none := by
  refine ⟨?_, ?_, rfl⟩
  · intro reg fs name p rec v habs hpath htype
    have hlook : (reg ++ [(name, rec)]).lookup name = some rec := by
      rw [lookup_append_right habs, lookup_cons_eq name _ _ rfl]
    have hget : get_voice_path (reg ++ [(name, rec)]) name = some p := by
      simp only [get_voice_path, hlook, hpath]
    have hdel : delete_voice true true (reg ++ [(name, rec)]) (fsWrite fs p v) name
        = ((true, .deleted),
           (reg ++ [(name, rec)]).filter (fun e => e.1 ≠ name),
           fsErase (fsWrite fs p v) p) := by
      simp only [delete_voice, hlook, if_neg htype, hpath, if_pos rfl, if_true]
    refine ⟨hget, by rw [hdel], ?_, ?_⟩
    · rw [hdel]
      simp only [get_voice_path, lookup_filter_ne]
    · rw [hdel]
      exact lookup_fsErase_self _ _
  · intro reg id h
    simp only [get_voice_path, h]

/-- C7 witness: concrete add / lookup / delete round-trip starting from
the default registry. -/
theorem get_path_roundtrip_witness :
    get_voice_path (defaultRegistry ++
        [("bob", ⟨"bob", "d", "cloned", some (voicePathOf "bob"), none⟩)]) "bob"
      = some (voicePathOf "bob") ∧
    ((delete_voice true true
        (defaultRegistry ++
          [("bob", ⟨"bob", "d", "cloned", some (voicePathOf "bob"), none⟩)])
        (fsWrite [] (voicePathOf "bob") ([[1]], 24000)) "bob").2.2).lookup
      (voicePathOf "bob") = none := by
  have h := get_path_roundtrip.1 defaultRegistry [] "bob" (voicePathOf "bob")
    ⟨"bob", "d", "cloned", some (voicePathOf "bob"), none⟩ ([[1]], 24000)
    (by decide) rfl (by decide)
  exact ⟨h.1, h.2.2.2⟩

/-- C8: a second ingestion with a name that is already a registry key
fails with the duplicate-name message, without touching the registry or
the filesystem; in particular the registry still holds exactly one record
for that name. -/
theorem duplicate_name_rejected (env : IngestEnv) (reg : Registry) (fs : FS)
    (file_path voice_name : String)
    (hfp : file_path ≠ "") (hex : env.fileExists = true)
    (hvalid : validName (pyStrip voice_name) = true)
    (hdup : regHas reg (pyStrip voice_name) = true) :
    process_audio_file env reg fs file_path voice_name
      = (⟨false, .duplicateName, []⟩, reg, fs) ∧
    ((reg.filter (fun e => e.1 = pyStrip voice_name)).length = 1 →
      (((process_audio_file env reg fs file_path voice_name).2.1).filter
        (fun e => e.1 = pyStrip voice_name)).length = 1) := by
  have h1 : ¬ (file_path = "" ∨ env.fileExists = false) := by
    rintro (h | h)
    · exact hfp h
    · rw [hex] at h
      cases h
  have h2 : ¬ (pyStrip voice_name = "") := by
    intro h
    rw [validName, h] at hvalid
    exact absurd hvalid (by decide)
  have heq : process_audio_file env reg fs file_path voice_name
      = (⟨false, .duplicateName, []⟩, reg, fs) := by
    rw [process_audio_file, if_neg h1, if_neg h2]
    simp only [hvalid, hdup, not_true, if_true, if_false]
  exact ⟨heq, fun hc => by rw [heq]; exact hc⟩

/-- C8 witness: ingesting the name `bob` into a registry that already
holds `bob` fails with the duplicate message and leaves the single
record in place. -/
theorem duplicate_name_rejected_witness :
    process_audio_file
        ⟨true, some ([[1]], 24000), false, fun _ w => some w, true,
          fun w => some (w, 24000), true⟩
        [("bob", ⟨"bob", "d", "cloned", none, none⟩)] [] "/tmp/a.wav" "bob"
      = (⟨false, .duplicateName, []⟩,
         [("bob", ⟨"bob", "d", "cloned", none, none⟩)], []) :=
  (duplicate_name_rejected _ _ _ _ _ (by decide) rfl (by decide) (by decide)).1

/-- C9: deleting the default voice always fails with the protected-record
message and leaves the registry entry count unchanged, and deleting an
unknown id fails with the not-found message without changing any state. -/
theorem default_voice_protected :
    (∀ (reg : Registry) (fs : FS) (o s : Bool) (d : VoiceRecord),
      reg.lookup "default" = some d → d.type = "default" →
      delete_voice o s reg fs "default" = ((false, .cannotDeleteDefault), reg, fs) ∧
      ((delete_voice o s reg fs "default").2.1).length = reg.length) ∧
    (∀ (reg : Registry) (fs : FS) (o s : Bool) (id : String),
      reg.lookup id = none →
      delete_voice o s reg fs id = ((false, .notFound), reg, fs)) := by
  constructor
  · intro reg fs o s d hd ht
    have heq : delete_voice o s reg fs "default"
        = ((false, .cannotDeleteDefault), reg, fs) := by
      simp [delete_voice, hd, ht]
    exact ⟨heq, by rw [heq]⟩
  · intro reg fs o s id hid
    simp only [delete_voice, hid]

/-- C9 witness: concrete protected delete and not-found delete on the
default registry. -/
theorem default_voice_protected_witness :
    delete_voice true true defaultRegistry [] "default"
      = ((false, .cannotDeleteDefault), defaultRegistry, []) ∧
    delete_voice true true defaultRegistry [] "ghost"
      = ((false, .notFound), defaultRegistry, []) :=
  ⟨(default_voice_protected.1 defaultRegistry [] true true
      ⟨"Default Voice", "Default TTS voice", "default", none, none⟩
      (by decide) rfl).1,
   default_voice_protected.2 defaultRegistry [] true true "ghost" (by decide)⟩

/-! ## Claims C5, C6 — script parsing and rendering -/

/-- C5: the sample two-host script parses to exactly the two ordered
turns, and any script whose (stripped) text matches zero turns makes
`podcast_tts` fail with the no-turns-found error (silence placeholder
plus error, for every TTS engine, registry and voice mapping). -/
theorem script_parsing_example_and_no_turns :
    parseTurns (pyStrip "<|Lily|>: Hello there\n\n<|Marshall|>: Indeed it is")
      = [("Lily", "Hello there"), ("Marshall", "Indeed it is")] ∧
    ∀ (tts : String → Option String → List ℚ) (reg : Registry) (text : String)
      (hv : List (String × String)), parseTurns (pyStrip text) = [] →
      podcast_tts tts reg text hv
        = ((24000, List.replicate 72000 0), .error .noTurnsFound) := by
  constructor
  · decide
  · intro tts reg text hv hp
    have h1 : renderBody tts reg text hv = .error .noTurnsFound := by
      simp only [renderBody, hp, eq_self_iff_true, if_true]
    simp only [podcast_tts, h1]

/-- C5 witness: a turn-free script degrades to the 3-second placeholder
with the no-turns error. -/
theorem script_parsing_no_turns_witness :
    podcast_tts (fun _ _ => []) defaultRegistry "just prose, no turns" []
      = ((24000, List.replicate 72000 0), .error .noTurnsFound) :=
  script_parsing_example_and_no_turns.2 _ defaultRegistry _ [] (by decide)

/-- C6: if some parsed speaker is missing from the speaker-to-voice
mapping, `podcast_tts` returns the 3-second silence placeholder and the
unknown-speaker error carrying exactly the set of offending speaker
names — for every TTS engine (so no synthesis influences the result);
and more generally every internal rendering failure is caught and turned
into the 72000-zero-sample placeholder plus the structured error. -/
theorem unknown_speaker_fails_fast :
    (∀ (tts : String → Option String → List ℚ) (reg : Registry) (text : String)
       (hv : List (String × String)),
      parseTurns (pyStrip text) ≠ [] →
      (∃ s ∈ (parseTurns (pyStrip text)).map Prod.fst, (hv.lookup s).isNone) →
      podcast_tts tts reg text hv
        = ((24000, List.replicate 72000 0),
           .error (.unknownSpeakers
             ((((parseTurns (pyStrip text)).map Prod.fst).filter
               (fun s => (hv.lookup s).isNone)).toFinset))) ∧
      (∀ s, s ∈ (((parseTurns (pyStrip text)).map Prod.fst).filter
               (fun s => (hv.lookup s).isNone)).toFinset ↔
        (s ∈ (parseTurns (pyStrip text)).map Prod.fst ∧ (hv.lookup s).isNone))) ∧
    (∀ (tts : String → Option String → List ℚ) (reg : Registry) (text : String)
       (hv : List (String × String)) (e : RenderErr),
      renderBody tts reg text hv = .error e →
      podcast_tts tts reg text hv
        = ((24000, List.replicate 72000 0), .error e)) := by
  constructor
  · intro tts reg text hv hne hex
    have hall : ¬ ((parseTurns (pyStrip text)).all
        (fun t => (hv.lookup t.1).isSome) = true) := by
      obtain ⟨s, hs, hnone⟩ := hex
      obtain ⟨t, ht, rfl⟩ := List.mem_map.mp hs
      intro hall
      have h1 := List.all_eq_true.mp hall t ht
      rw [Option.isNone_iff_eq_none] at hnone
      rw [hnone] at h1
      cases h1
    constructor
    · simp only [podcast_tts, renderBody, if_neg hne, if_pos hall]
    · intro s
      rw [List.mem_toFinset, List.mem_filter]
  · intro tts reg text hv e he
    simp only [podcast_tts, he]

/-- C6 witness: a script whose second speaker is absent from the mapping
fails with exactly that speaker in the error set, for a concrete engine. -/
theorem unknown_speaker_fails_fast_witness :
    podcast_tts (fun _ _ => [1]) defaultRegistry
        "<|Lily|>: Hello there\n\n<|Marshall|>: Indeed it is"
        [("Lily", "default")]
      = ((24000, List.replicate 72000 0),
         .error (.unknownSpeakers
           ((["Marshall"] : List String).toFinset))) := by
  have h := (unknown_speaker_fails_fast.1 (fun _ _ => [1]) defaultRegistry
    "<|Lily|>: Hello there\n\n<|Marshall|>: Indeed it is"
    [("Lily", "default")] (by decide)
    ⟨"Marshall", by decide, by decide⟩).1
  rw [h]
  congr 1

/-! ## Claim C10 — the all-silent branch is unreachable after
normalization -/

lemma rmsSq_pos_of_mem_ne_zero {v : List ℚ} {x : ℚ} (hx : x ∈ v) (hx0 : x ≠ 0) :
    0 < maxRmsSq v := by
  obtain ⟨f, hf, hxf⟩ := mem_toFrames hx
  have hsq : 0 < x * x := mul_self_pos.mpr hx0
  have h1 : x * x ≤ sumSq f := sq_le_sumSq hxf
  have h2 : (0 : ℚ) < sumSq f / 1024 := by
    have h0 : 0 < sumSq f := lt_of_lt_of_le hsq h1
    positivity
  have h3 : sumSq f / 1024 ≤ maxRmsSq v := by
    refine le_foldr_max 0 ?_
    exact List.mem_map.mpr ⟨f, hf, rfl⟩
  linarith

lemma mask_any_of_max_pos {v : List ℚ} (h : 0 < maxRmsSq v) :
    (nonSilentMask v).any id = true := by
  rcases foldr_max_eq_or_mem (rmsSqList v) 0 with h' | h'
  · rw [maxRmsSq] at h
    rw [h'] at h
    exact absurd h (lt_irrefl 0)
  · refine List.any_eq_true.mpr ?_
    refine ⟨decide (maxRmsSq v / 10000 < maxRmsSq v), ?_, ?_⟩
    · exact List.mem_map.mpr ⟨maxRmsSq v, h', rfl⟩
    · simp only [id, decide_eq_true_eq]
      linarith

/-- C10: once the waveform has passed the peak-amplitude ≥ 0.01 check
and been peak-normalized, the maximum-RMS frame always strictly exceeds
the 1 %-of-max threshold, so whenever the per-frame computation succeeds
(sample count a nonzero multiple of 1024) the trim branch is taken — the
"no non-silent parts found" branch is unreachable — and when the frame
computation would raise (count not a multiple of 1024) the exception is
caught and the audio is kept in full with the warning note. -/
theorem trim_branch_reachability (u : Chan) (hamp : 1/100 ≤ maxAbs [u]) :
    (1024 ∣ u.length → u.length ≠ 0 →
      (trimSilence (divEach [u] (maxAbs [u]))).2 = .trimmed) ∧
    (¬ (1024 ∣ u.length) →
      trimSilence (divEach [u] (maxAbs [u]))
        = (divEach [u] (maxAbs [u]), .failed)) := by
  have hm : 0 < maxAbs [u] := lt_of_lt_of_le (by norm_num) hamp
  have hflat : (divEach [u] (maxAbs [u])).flatten = u.map (fun x => x / maxAbs [u]) := by
    rw [flatten_divEach]
    simp
  have hlen : ((divEach [u] (maxAbs [u])).flatten).length = u.length := by
    rw [hflat, List.length_map]
  constructor
  · intro hdvd hne
    obtain ⟨x, hx, hxm⟩ := maxAbs_attained hm
    have hxu : x ∈ u := by simpa using hx
    have hx0 : x ≠ 0 := by
      intro h0
      rw [h0, abs_zero] at hxm
      exact absurd hxm.symm (ne_of_gt hm)
    have hmem : x / maxAbs [u] ∈ (divEach [u] (maxAbs [u])).flatten := by
      rw [hflat]
      exact List.mem_map_of_mem _ hxu
    have hne0 : x / maxAbs [u] ≠ 0 := by
      intro h0
      rcases div_eq_zero_iff.mp h0 with h0 | h0
      · exact hx0 h0
      · exact absurd h0 (ne_of_gt hm)
    have hpos := rmsSq_pos_of_mem_ne_zero hmem hne0
    have hany := mask_any_of_max_pos hpos
    have hguard : ¬ (¬ (1024 ∣ ((divEach [u] (maxAbs [u])).flatten).length)
        ∨ ((divEach [u] (maxAbs [u])).flatten).length = 0) := by
      rw [hlen]
      push_neg
      exact ⟨hdvd, hne⟩
    simp only [trimSilence, if_neg hguard, hany, if_true]
  · intro hdvd
    have hguard : ¬ (1024 ∣ ((divEach [u] (maxAbs [u])).flatten).length)
        ∨ ((divEach [u] (maxAbs [u])).flatten).length = 0 := by
      rw [hlen]
      exact Or.inl hdvd
    simp only [trimSilence, if_pos hguard]

lemma maxAbs_single_replicate (n : ℕ) (x : ℚ) :
    maxAbs [List.replicate n x] = if n = 0 then 0 else |x| := by
  rw [maxAbs]
  simp only [List.flatten, List.append_nil, List.map_replicate]
  rw [foldr_max_replicate]
  rcases Nat.eq_zero_or_pos n with rfl | h
  · simp
  · rw [if_neg (Nat.pos_iff_ne_zero.mp h), if_neg (Nat.pos_iff_ne_zero.mp h)]
    exact max_eq_left (abs_nonneg x)

/-- C10 witness: a constant-½ frame of 1024 samples passes the amplitude
check, and its normalization is trimmed (the trim branch is taken). -/
theorem trim_branch_reachability_witness :
    (trimSilence (divEach [List.replicate 1024 ((1:ℚ)/2)]
        (maxAbs [List.replicate 1024 ((1:ℚ)/2)]))).2 = .trimmed :=
  (trim_branch_reachability (List.replicate 1024 ((1:ℚ)/2))
      (by rw [maxAbs_single_replicate]; norm_num [abs_of_nonneg])).1
    (by norm_num) (by norm_num)

/-! ## Claim C2 — characterization of the silence-trim step -/

lemma flatten_single (l : Chan) : ([l] : Waveform).flatten = l := by simp

lemma numSamples_single (l : Chan) : numSamples [l] = l.length := by simp [numSamples]

lemma nonSilentMask_length (row : List ℚ) :
    (nonSilentMask row).length = (rmsSqList row).length := by
  rw [nonSilentMask, List.length_map]

lemma nonSilentMask_getD {row : List ℚ} {i : ℕ} (h : i < (rmsSqList row).length) :
    (nonSilentMask row).getD i false
      = decide (maxRmsSq row / 10000 < (rmsSqList row).getD i 0) := by
  rw [nonSilentMask,
    List.getD_eq_getElem _ _ (by simpa [List.length_map] using h),
    List.getElem_map, List.getD_eq_getElem _ _ h]

lemma mask_any_iff (row : List ℚ) :
    (nonSilentMask row).any id = true ↔
      ∃ i, i < (rmsSqList row).length ∧
        maxRmsSq row / 10000 < (rmsSqList row).getD i 0 := by
  constructor
  · intro h
    obtain ⟨hlt, hget, _⟩ := findIdx_bool_spec _ h
    have hi : (nonSilentMask row).findIdx id < (rmsSqList row).length := by
      rw [← nonSilentMask_length]
      exact hlt
    refine ⟨(nonSilentMask row).findIdx id, hi, ?_⟩
    rw [nonSilentMask_getD hi] at hget
    exact of_decide_eq_true hget
  · rintro ⟨i, hi, hlt⟩
    have hi' : i < (nonSilentMask row).length := by
      rw [nonSilentMask_length]
      exact hi
    refine List.any_eq_true.mpr ⟨(nonSilentMask row).getD i false, ?_, ?_⟩
    · rw [List.getD_eq_getElem _ _ hi']
      exact List.getElem_mem hi'
    · rw [nonSilentMask_getD hi]
      simpa using hlt

/-- C2 (amended): given a sample count that is a nonzero multiple of
1024, the trim step cuts the signal into CONTIGUOUS non-overlapping
1024-sample frames covering it exactly; thresholds the per-frame RMS at
1 % of the maximum; if no frame exceeds the threshold the audio is
returned unmodified with the non-fatal note; and if some frames exceed
it, with `a` the first and `b` the last such frame index, it keeps the
sample range `[a*512, min((b+1)*512, n))` — frame indices are converted
to sample indices with hop 512 even though the analysis frames are
contiguous, so the kept range is generally NOT the span of the
non-silent frames. -/
theorem trim_silence_characterization (row : List ℚ)
    (hdvd : 1024 ∣ row.length) (hne : row ≠ []) :
    ((toFrames row).flatten = row ∧ ∀ f ∈ toFrames row, f.length = 1024) ∧
    ((¬ ∃ i, i < (rmsSqList row).length ∧
        maxRmsSq row / 10000 < (rmsSqList row).getD i 0) →
      trimSilence [row] = ([row], .noNonSilent)) ∧
    (∀ a b,
      IsLeast {i | i < (rmsSqList row).length ∧
        maxRmsSq row / 10000 < (rmsSqList row).getD i 0} a →
      IsGreatest {i | i < (rmsSqList row).length ∧
        maxRmsSq row / 10000 < (rmsSqList row).getD i 0} b →
      trimSilence [row]
        = ([(row.drop (a * 512)).take (min ((b + 1) * 512) row.length - a * 512)],
           .trimmed)) := by
  have hlen0 : row.length ≠ 0 := fun h => hne (List.length_eq_zero.mp h)
  have hguard : ¬ (¬ (1024 ∣ row.length) ∨ row.length = 0) := by
    push_neg
    exact ⟨hdvd, hlen0⟩
  refine ⟨⟨flatten_toFrames row, toFrames_length_1024 hdvd⟩, ?_, ?_⟩
  · intro hno
    have hany : ¬ ((nonSilentMask row).any id = true) := by
      rw [mask_any_iff]
      exact hno
    simp only [trimSilence, flatten_single, if_neg hguard, if_neg hany]
  · intro a b hlea hgrb
    have hany : (nonSilentMask row).any id = true :=
      (mask_any_iff row).mpr ⟨a, hlea.1.1, hlea.1.2⟩
    -- the computed first frame index is the least element of the set
    obtain ⟨hflt, hfget, hfmin⟩ := findIdx_bool_spec _ hany
    have hfS : (nonSilentMask row).findIdx id < (rmsSqList row).length ∧
        maxRmsSq row / 10000
          < (rmsSqList row).getD ((nonSilentMask row).findIdx id) 0 := by
      have hi : (nonSilentMask row).findIdx id < (rmsSqList row).length := by
        rw [← nonSilentMask_length]
        exact hflt
      refine ⟨hi, ?_⟩
      rw [nonSilentMask_getD hi] at hfget
      exact of_decide_eq_true hfget
    have hfa : (nonSilentMask row).findIdx id = a := by
      refine le_antisymm ?_ (hlea.2 hfS)
      by_contra hcon
      push_neg at hcon
      have hfalse := hfmin a hcon
      rw [nonSilentMask_getD hlea.1.1] at hfalse
      rw [decide_eq_false_iff_not] at hfalse
      exact hfalse hlea.1.2
    -- the computed last frame index is the greatest element of the set
    have hanyr : ((nonSilentMask row).reverse).any id = true := by
      rw [any_reverse]
      exact hany
    obtain ⟨hrlt, hrget, hrmin⟩ := findIdx_bool_spec _ hanyr
    have hrlen : ((nonSilentMask row).reverse).findIdx id
        < (nonSilentMask row).length := by
      simpa using hrlt
    have hb0S : ((nonSilentMask row).length
          - ((nonSilentMask row).reverse).findIdx id - 1)
          < (rmsSqList row).length ∧
        maxRmsSq row / 10000 < (rmsSqList row).getD
          ((nonSilentMask row).length
            - ((nonSilentMask row).reverse).findIdx id - 1) 0 := by
      have h1 : (nonSilentMask row).length
          - ((nonSilentMask row).reverse).findIdx id - 1
          = (nonSilentMask row).length - 1
            - ((nonSilentMask row).reverse).findIdx id := by omega
      have hi : (nonSilentMask row).length
          - ((nonSilentMask row).reverse).findIdx id - 1
          < (rmsSqList row).length := by
        rw [← nonSilentMask_length]
        omega
      refine ⟨hi, ?_⟩
      rw [getD_reverse _ _ hrlen] at hrget
      rw [← h1] at hrget
      rw [nonSilentMask_getD hi] at hrget
      exact of_decide_eq_true hrget
    have hbb : (nonSilentMask row).length
        - ((nonSilentMask row).reverse).findIdx id - 1 = b := by
      refine le_antisymm (hgrb.2 hb0S) ?_
      by_contra hcon
      push_neg at hcon
      have hblen : b < (nonSilentMask row).length := by
        rw [nonSilentMask_length]
        exact hgrb.1.1
      have hj : (nonSilentMask row).length - 1 - b
          < ((nonSilentMask row).reverse).findIdx id := by omega
      have hfalse := hrmin _ hj
      rw [getD_reverse _ _ (by omega)] at hfalse
      have hjb : (nonSilentMask row).length - 1
          - ((nonSilentMask row).length - 1 - b) = b := by omega
      rw [hjb] at hfalse
      rw [nonSilentMask_getD hgrb.1.1] at hfalse
      rw [decide_eq_false_iff_not] at hfalse
      exact hfalse hgrb.1.2
    simp only [trimSilence, flatten_single, if_neg hguard, hany, if_true,
      numSamples_single, List.map_cons, List.map_nil, hfa, hbb]

lemma toFrames_replicate (k : ℕ) (x : ℚ) :
    toFrames (List.replicate (k * 1024) x) = List.replicate k (List.replicate 1024 x) := by
  have h := toFrames_replicate_append k x []
  rw [List.append_nil, toFrames_nil, List.append_nil] at h
  exact h

lemma rmsSqList_rep2048 : rmsSqList (List.replicate 2048 (1:ℚ)) = [1, 1] := by
  rw [congrArg (fun n => List.replicate n (1:ℚ)) (by norm_num : (2048:ℕ) = 2 * 1024)]
  rw [rmsSqList, toFrames_replicate, List.map_replicate, sumSq_replicate]
  norm_num
  rfl

lemma maxRmsSq_rep2048 : maxRmsSq (List.replicate 2048 (1:ℚ)) = 1 := by
  rw [maxRmsSq, rmsSqList_rep2048]
  simp only [List.foldr_cons, List.foldr_nil]
  norm_num

lemma mask_rep2048 : nonSilentMask (List.replicate 2048 (1:ℚ)) = [true, true] := by
  rw [nonSilentMask, rmsSqList_rep2048, maxRmsSq_rep2048]
  norm_num

/-- C2 witness: on the constant signal of 2048 ones both frames are
non-silent (`a = 0`, `b = 1`) and the trim step keeps exactly the range
`[0*512, min(2*512, 2048))` — the first 1024 samples. -/
theorem trim_silence_characterization_witness :
    trimSilence [List.replicate 2048 (1:ℚ)]
      = ([((List.replicate 2048 (1:ℚ)).drop (0 * 512)).take
          (min ((1 + 1) * 512) (List.replicate 2048 (1:ℚ)).length - 0 * 512)],
         .trimmed) := by
  have hset : {i | i < (rmsSqList (List.replicate 2048 (1:ℚ))).length ∧
      maxRmsSq (List.replicate 2048 (1:ℚ)) / 10000
        < (rmsSqList (List.replicate 2048 (1:ℚ))).getD i 0}
      = {i | i < 2 ∧ (1:ℚ) / 10000 < [(1:ℚ), 1].getD i 0} := by
    rw [rmsSqList_rep2048, maxRmsSq_rep2048]
    simp
  refine (trim_silence_characterization (List.replicate 2048 (1:ℚ))
      (by rw [List.length_replicate]; norm_num)
      (by
        intro h
        have hc := congrArg List.length h
        rw [List.length_replicate] at hc
        exact absurd hc (by norm_num))).2.2 0 1 ?_ ?_
  · rw [IsLeast, hset]
    constructor
    · constructor
      · norm_num
      · norm_num
    · intro x hx
      exact Nat.zero_le x
  · rw [IsGreatest, hset]
    constructor
    · constructor
      · norm_num
      · norm_num
    · intro x hx
      obtain ⟨hx1, _⟩ := hx
      omega

/-- Modelled from the claim wording of C2 (and spec §4.1 step 7): split
the mono signal into analysis frames of length 1024 samples with hop 512
(true overlapping hop), compute RMS energy per frame, threshold at 1 % of
the maximum frame RMS (again compared on squares), and keep exactly the
sample range SPANNING from the first to the last frame whose RMS exceeds
the threshold, i.e. `[first*512, last*512 + 1024)`; all-silent input is
returned unmodified. -/
def trimSilenceSpec (row : List ℚ) : List ℚ :=
  let k := if row.length < 1024 then 0 else (row.length - 1024) / 512 + 1
  let rmsSqs := (List.range k).map
    (fun i => sumSq ((row.drop (512 * i)).take 1024) / 1024)
  let maxR := rmsSqs.foldr max 0
  let mask := rmsSqs.map (fun r => decide (maxR / 10000 < r))
  if mask.any id then
    let first := mask.findIdx id
    let last := mask.length - mask.reverse.findIdx id - 1
    (row.take (last * 512 + 1024)).drop (first * 512)
  else row

lemma trimSilence_rep2048 :
    trimSilence [List.replicate 2048 (1:ℚ)]
      = ([List.replicate 1024 (1:ℚ)], .trimmed) := by
  have hguard : ¬ (¬ (1024 ∣ (([List.replicate 2048 (1:ℚ)] : Waveform).flatten).length)
      ∨ (([List.replicate 2048 (1:ℚ)] : Waveform).flatten).length = 0) := by
    rw [flatten_single, List.length_replicate]
    push_neg
    norm_num
  simp only [trimSilence, flatten_single, if_neg hguard, mask_rep2048]
  rw [if_pos (show ([true, true]).any id = true from rfl)]
  rw [numSamples_single, List.length_replicate]
  norm_num [show List.findIdx id [true, true] = 0 from rfl,
    show ([true, true] : List Bool).reverse = [true, true] from rfl,
    show ([true, true] : List Bool).length = 2 from rfl,
    List.take_replicate]

lemma trimSilenceSpec_rep2048 :
    trimSilenceSpec (List.replicate 2048 (1:ℚ)) = List.replicate 2048 (1:ℚ) := by
  have hk : (if (List.replicate 2048 (1:ℚ)).length < 1024 then 0
      else ((List.replicate 2048 (1:ℚ)).length - 1024) / 512 + 1) = 3 := by
    rw [List.length_replicate]
    norm_num
  have hframes : (List.range 3).map
      (fun i => sumSq (((List.replicate 2048 (1:ℚ)).drop (512 * i)).take 1024) / 1024)
      = [1, 1, 1] := by
    rw [show List.range 3 = [0, 1, 2] from rfl]
    simp only [List.map_cons, List.map_nil, List.drop_replicate, List.take_replicate]
    norm_num [sumSq_replicate]
  simp only [trimSilenceSpec, hk, hframes]
  norm_num [show List.findIdx id [true, true, true] = 0 from rfl,
    show ([true, true, true] : List Bool).reverse = [true, true, true] from rfl,
    List.take_replicate]

/-- C2 counterexample: on 2048 constant-one samples both contiguous
frames are non-silent, so the claimed behaviour (keep the sample range
spanning the non-silent frames — all 2048 samples) differs from the
code, which keeps only `[0*512, min(2*512, 2048)) = [0, 1024)` — half
the signal. -/
theorem trim_silence_claim_counterexample :
    (trimSilence [List.replicate 2048 (1:ℚ)]).1 = [List.replicate 1024 (1:ℚ)] ∧
    trimSilenceSpec (List.replicate 2048 (1:ℚ)) = List.replicate 2048 (1:ℚ) ∧
    (List.replicate 1024 (1:ℚ)) ≠ List.replicate 2048 (1:ℚ) := by
  refine ⟨by rw [trimSilence_rep2048], trimSilenceSpec_rep2048, ?_⟩
  intro h
  have hc := congrArg List.length h
  rw [List.length_replicate, List.length_replicate] at hc
  exact absurd hc (by norm_num)

/-! ## Claim C4 — validation failures: empty trace, untouched state -/

lemma saveStage_outcome {env : IngestEnv} {reg : Registry} {fs : FS}
    {fp nm : String} {w : Waveform} {t : List (ℕ × Note)}
    {r : IngestResult × Registry × FS}
    (hr : r = saveStage env reg fs fp nm w t)
    (hsucc : r.1.success = false) (hs : r.1.msg ≠ .saveFailed)
    (hv : r.1.msg ≠ .verifyFailed) (hd : r.1.msg ≠ .dbSaveFailed) : False := by
  rw [saveStage] at hr
  split at hr
  · subst hr
    exact hs rfl
  · split at hr
    · subst hr
      exact hv rfl
    · split at hr
      · subst hr
        exact hv rfl
      · split at hr
        · subst hr
          exact hd rfl
        · subst hr
          cases hsucc

lemma normalizeStage_outcome {env : IngestEnv} {reg : Registry} {fs : FS}
    {fp nm : String} {w : Waveform} {t : List (ℕ × Note)}
    {r : IngestResult × Registry × FS}
    (hr : r = normalizeStage env reg fs fp nm w t)
    (hsucc : r.1.success = false) (hs : r.1.msg ≠ .saveFailed)
    (hv : r.1.msg ≠ .verifyFailed) (hd : r.1.msg ≠ .dbSaveFailed) : False := by
  rw [normalizeStage] at hr
  exact saveStage_outcome hr hsucc hs hv hd

lemma resampleStage_outcome {env : IngestEnv} {reg : Registry} {fs : FS}
    {fp nm : String} {w : Waveform} {sr : ℕ} {t : List (ℕ × Note)}
    {r : IngestResult × Registry × FS}
    (hr : r = resampleStage env reg fs fp nm w sr t)
    (hsucc : r.1.success = false) (hs : r.1.msg ≠ .saveFailed)
    (hv : r.1.msg ≠ .verifyFailed) (hd : r.1.msg ≠ .dbSaveFailed) :
    r.1.trace = [] ∧ r.2.1 = reg ∧ r.2.2 = fs := by
  rw [resampleStage] at hr
  split at hr
  · split at hr
    · subst hr
      exact ⟨rfl, rfl, rfl⟩
    · exact absurd (normalizeStage_outcome hr hsucc hs hv hd) not_false
  · exact absurd (normalizeStage_outcome hr hsucc hs hv hd) not_false

set_option maxHeartbeats 1000000 in
/-- C4 (amended): whenever a validation or normalization step rejects an
upload (missing file, empty or invalid or duplicate name, unreadable,
empty or corrupt audio, too short, too long, too quiet, resampling
failure), ingestion short-circuits with that specific reason, leaves the
registry and the filesystem unchanged, and returns the EMPTY progress
trace — not the trace accumulated up to the failing step; the
accumulated trace is only returned by the save / verify / registry-write
failures and by success. -/
theorem validation_failure_empty_trace (env : IngestEnv) (reg : Registry)
    (fs : FS) (fp nm : String) (r : IngestResult × Registry × FS)
    (hr : r = process_audio_file env reg fs fp nm)
    (hsucc : r.1.success = false) (hs : r.1.msg ≠ .saveFailed)
    (hv : r.1.msg ≠ .verifyFailed) (hd : r.1.msg ≠ .dbSaveFailed) :
    r.1.trace = [] ∧ r.2.1 = reg ∧ r.2.2 = fs := by
  simp only [process_audio_file] at hr
  by_cases h1 : fp = "" ∨ env.fileExists = false
  · rw [if_pos h1] at hr
    subst hr
    exact ⟨rfl, rfl, rfl⟩
  · rw [if_neg h1] at hr
    by_cases h2 : pyStrip nm = ""
    · rw [if_pos h2] at hr
      subst hr
      exact ⟨rfl, rfl, rfl⟩
    · rw [if_neg h2] at hr
      by_cases h3 : ¬ validName (pyStrip nm) = true
      · rw [if_pos h3] at hr
        subst hr
        exact ⟨rfl, rfl, rfl⟩
      · rw [if_neg h3] at hr
        by_cases h4 : regHas reg (pyStrip nm) = true
        · rw [if_pos h4] at hr
          subst hr
          exact ⟨rfl, rfl, rfl⟩
        · rw [if_neg h4] at hr
          rcases henv : env.loadResult with _ | ⟨w, sr⟩
          · rw [henv] at hr
            subst hr
            exact ⟨rfl, rfl, rfl⟩
          · rw [henv] at hr
            dsimp only at hr
            by_cases h5 : w.flatten.length = 0
            · rw [if_pos h5] at hr
              subst hr
              exact ⟨rfl, rfl, rfl⟩
            · rw [if_neg h5] at hr
              by_cases h6 : env.hasInvalidValues = true
              · rw [if_pos h6] at hr
                subst hr
                exact ⟨rfl, rfl, rfl⟩
              · rw [if_neg h6] at hr
                by_cases h7 : (numSamples w : ℚ) / (sr : ℚ) < 5
                · rw [if_pos h7] at hr
                  subst hr
                  exact ⟨rfl, rfl, rfl⟩
                · rw [if_neg h7] at hr
                  by_cases h8 : 300 < (numSamples w : ℚ) / (sr : ℚ)
                  · rw [if_pos h8] at hr
                    subst hr
                    exact ⟨rfl, rfl, rfl⟩
                  · rw [if_neg h8] at hr
                    by_cases h9 : maxAbs (if 1 < w.length then [meanChannels w] else w) < 1/100
                    · rw [if_pos h9] at hr
                      subst hr
                      exact ⟨rfl, rfl, rfl⟩
                    · rw [if_neg h9] at hr
                      exact resampleStage_outcome hr hsucc hs hv hd

/-! ## Evaluation lemmas for concrete ingestion runs -/

lemma process_to_resample (env : IngestEnv) (reg : Registry) (fs : FS)
    (fp nm : String) (w : Waveform) (sr : ℕ)
    (h1 : fp ≠ "") (h2 : env.fileExists = true)
    (h3 : validName (pyStrip nm) = true)
    (h4 : regHas reg (pyStrip nm) = false)
    (h5 : env.loadResult = some (w, sr))
    (h6 : w.flatten.length ≠ 0)
    (h7 : env.hasInvalidValues = false)
    (h8 : ¬ ((numSamples w : ℚ) / (sr : ℚ) < 5))
    (h9 : ¬ (300 < (numSamples w : ℚ) / (sr : ℚ)))
    (h10 : ¬ (maxAbs (if 1 < w.length then [meanChannels w] else w) < 1/100)) :
    process_audio_file env reg fs fp nm
      = resampleStage env reg fs fp (pyStrip nm)
          (if 1 < w.length then [meanChannels w] else w) sr
          (if 1 < maxAbs (if 1 < w.length then [meanChannels w] else w) then
            (if 1 < w.length then
              [(5, Note.validating), (10, Note.loadedDuration), (15, Note.srChannels)]
                ++ [(20, Note.convertingMono), (25, Note.convertedMono)]
             else [(5, Note.validating), (10, Note.loadedDuration), (15, Note.srChannels)])
              ++ [(30, Note.levelsHigh)]
           else
            (if 1 < w.length then
              [(5, Note.validating), (10, Note.loadedDuration), (15, Note.srChannels)]
                ++ [(20, Note.convertingMono), (25, Note.convertedMono)]
             else [(5, Note.validating), (10, Note.loadedDuration), (15, Note.srChannels)])) := by
  have hg1 : ¬ (fp = "" ∨ env.fileExists = false) := by
    rintro (h | h)
    · exact h1 h
    · rw [h2] at h
      cases h
  have hg2 : ¬ (pyStrip nm = "") := by
    intro h
    rw [validName, h] at h3
    exact absurd h3 (by decide)
  have hg3 : ¬ (¬ validName (pyStrip nm) = true) := by
    rw [h3]
    exact fun h => h rfl
  have hg4 : ¬ (regHas reg (pyStrip nm) = true) := by
    rw [h4]
    exact Bool.false_ne_true
  have hg7 : ¬ (env.hasInvalidValues = true) := by
    rw [h7]
    exact Bool.false_ne_true
  simp only [process_audio_file, h5]
  rw [if_neg hg1, if_neg hg2, if_neg hg3, if_neg hg4]
  rw [if_neg h6, if_neg hg7, if_neg h8, if_neg h9, if_neg h10]

lemma resampleStage_at_24000 (env : IngestEnv) (reg : Registry) (fs : FS)
    (fp nm : String) (w : Waveform) (t : List (ℕ × Note)) :
    resampleStage env reg fs fp nm w 24000 t
      = normalizeStage env reg fs fp nm w t := by
  simp [resampleStage]

lemma resampleStage_identity (env : IngestEnv) (reg : Registry) (fs : FS)
    (fp nm : String) (w w' : Waveform) (sr : ℕ) (t : List (ℕ × Note))
    (hsr : sr ≠ 24000) (hres : env.resample sr w = some w') :
    resampleStage env reg fs fp nm w sr t
      = normalizeStage env reg fs fp nm w'
          (t ++ [(35, Note.resampling), (40, Note.resampled)]) := by
  simp only [resampleStage, if_pos hsr, hres]

lemma saveStage_eval (env : IngestEnv) (reg : Registry) (fs : FS)
    (fp nm : String) (w : Waveform) (t : List (ℕ × Note))
    (hsave : env.saveOk = true) (hver : env.verifyLoad w = some (w, 24000)) :
    saveStage env reg fs fp nm w t
      = (if env.dbSaveOk then
          (⟨true, .ingested,
            (t ++ [(85, Note.audioSaved)]
              ++ [(87, Note.verifiedSaved), (90, Note.updatingDb)])
              ++ [(95, Note.dbUpdated), (100, Note.complete)]⟩,
           reg ++ [(nm, ⟨nm, "Cloned voice from " ++ basename fp, "cloned",
              some (voicePathOf nm), some (basename fp)⟩)],
           fsWrite fs (voicePathOf nm) (w, 24000))
        else
          (⟨false, .dbSaveFailed,
            t ++ [(85, Note.audioSaved)]
              ++ [(87, Note.verifiedSaved), (90, Note.updatingDb)]⟩,
           reg ++ [(nm, ⟨nm, "Cloned voice from " ++ basename fp, "cloned",
              some (voicePathOf nm), some (basename fp)⟩)],
           fsErase (fsWrite fs (voicePathOf nm) (w, 24000)) (voicePathOf nm))) := by
  have hg1 : ¬ (¬ env.saveOk = true) := by
    rw [hsave]
    exact fun h => h rfl
  have hshape : ¬ ((24000 : ℕ) ≠ 24000
      ∨ (w.length, numSamples w) ≠ (w.length, numSamples w)) := by
    rintro (h | h)
    · exact h rfl
    · exact h rfl
  simp only [saveStage, if_neg hg1, hver, if_neg hshape]
  cases hdb : env.dbSaveOk with
  | true =>
    rw [if_neg (show ¬ (¬ true = true) from fun h => h rfl), if_pos rfl]
  | false =>
    rw [if_pos (show ¬ (false = true) from Bool.false_ne_true),
      if_neg (show ¬ (false = true) from Bool.false_ne_true)]

lemma trimSilence_not_dvd {w : Waveform} (h : ¬ (1024 ∣ w.flatten.length)) :
    trimSilence w = (w, .failed) := by
  simp only [trimSilence, if_pos (Or.inl h)]

lemma divEach_single_replicate (n : ℕ) (x m : ℚ) :
    divEach [List.replicate n x] m = [List.replicate n (x / m)] := by
  simp [divEach, List.map_replicate]

/-! ## Claim C1 — invariants of a successful ingestion -/

lemma divEach_length (w : Waveform) (m : ℚ) : (divEach w m).length = w.length :=
  List.length_map w _

lemma saveStage_success {env : IngestEnv} {reg : Registry} {fs : FS}
    {fp nm : String} {w : Waveform} {t : List (ℕ × Note)}
    {r : IngestResult × Registry × FS}
    (hr : r = saveStage env reg fs fp nm w t) (hsucc : r.1.success = true) :
    r.2.1 = reg ++ [(nm, ⟨nm, "Cloned voice from " ++ basename fp, "cloned",
        some (voicePathOf nm), some (basename fp)⟩)] ∧
    r.2.2.lookup (voicePathOf nm) = some (w, 24000) := by
  rw [saveStage] at hr
  split at hr
  · subst hr
    cases hsucc
  · split at hr
    · subst hr
      cases hsucc
    · split at hr
      · subst hr
        cases hsucc
      · split at hr
        · subst hr
          cases hsucc
        · subst hr
          exact ⟨rfl, lookup_fsWrite_self fs (voicePathOf nm) (w, 24000)⟩

lemma normalizeStage_success {env : IngestEnv} {reg : Registry} {fs : FS}
    {fp nm : String} {w : Waveform} {t : List (ℕ × Note)}
    {r : IngestResult × Registry × FS}
    (hr : r = normalizeStage env reg fs fp nm w t) (hsucc : r.1.success = true) :
    ∃ w', r.2.1 = reg ++ [(nm, ⟨nm, "Cloned voice from " ++ basename fp, "cloned",
        some (voicePathOf nm), some (basename fp)⟩)] ∧
      r.2.2.lookup (voicePathOf nm) = some (w', 24000) ∧
      w'.length = w.length ∧ maxAbs w' ≤ 1 := by
  rw [normalizeStage] at hr
  obtain ⟨h1, h2⟩ := saveStage_success hr hsucc
  refine ⟨(trimSilence (divEach w (maxAbs w))).1, h1, h2, ?_, ?_⟩
  · rw [trimSilence_length, divEach_length]
  · exact le_trans (maxAbs_trimSilence_le _) (maxAbs_divEach_le_one w)

lemma resampleStage_success {env : IngestEnv} {reg : Registry} {fs : FS}
    {fp nm : String} {w : Waveform} {sr : ℕ} {t : List (ℕ × Note)}
    {r : IngestResult × Registry × FS}
    (hres : ∀ sr₀ w₀ w₁, env.resample sr₀ w₀ = some w₁ → w₁.length = w₀.length)
    (hr : r = resampleStage env reg fs fp nm w sr t) (hsucc : r.1.success = true) :
    ∃ w', r.2.1 = reg ++ [(nm, ⟨nm, "Cloned voice from " ++ basename fp, "cloned",
        some (voicePathOf nm), some (basename fp)⟩)] ∧
      r.2.2.lookup (voicePathOf nm) = some (w', 24000) ∧
      w'.length = w.length ∧ maxAbs w' ≤ 1 := by
  rw [resampleStage] at hr
  split at hr
  · split at hr
    · subst hr
      cases hsucc
    · next w₂ heq =>
      obtain ⟨w', h1, h2, h3, h4⟩ := normalizeStage_success hr hsucc
      exact ⟨w', h1, h2, by rw [h3, hres _ _ _ heq], h4⟩
  · exact normalizeStage_success hr hsucc

set_option maxHeartbeats 1000000 in
/-- C1 (amended): whenever `process_audio_file` succeeds, the persisted
waveform is mono (one channel) and stored at 24000 Hz, and the registry
gains exactly one new record, for the stripped requested name, of type
`cloned` pointing at `<voices_dir>/<name>.wav`; the waveform was
peak-normalized BEFORE silence-trimming, so its maximum absolute sample
amplitude is at most 1.0 — but not necessarily equal to 1.0, because the
trim window `[first*512, min((last+1)*512, n))` can cut away the peak
sample (environment hypothesis: the external resampler preserves the
channel count, as `torchaudio.transforms.Resample` does). -/
theorem ingestion_success_invariants (env : IngestEnv) (reg : Registry)
    (fs : FS) (fp nm : String) (r : IngestResult × Registry × FS)
    (hres : ∀ sr₀ w₀ w₁, env.resample sr₀ w₀ = some w₁ → w₁.length = w₀.length)
    (hr : r = process_audio_file env reg fs fp nm)
    (hsucc : r.1.success = true) :
    r.2.1 = reg ++ [(pyStrip nm,
      ⟨pyStrip nm, "Cloned voice from " ++ basename fp, "cloned",
        some (voicePathOf (pyStrip nm)), some (basename fp)⟩)] ∧
    ∃ w, r.2.2.lookup (voicePathOf (pyStrip nm)) = some (w, 24000) ∧
      w.length = 1 ∧ maxAbs w ≤ 1 := by
  simp only [process_audio_file] at hr
  by_cases h1 : fp = "" ∨ env.fileExists = false
  · rw [if_pos h1] at hr
    subst hr
    cases hsucc
  · rw [if_neg h1] at hr
    by_cases h2 : pyStrip nm = ""
    · rw [if_pos h2] at hr
      subst hr
      cases hsucc
    · rw [if_neg h2] at hr
      by_cases h3 : ¬ validName (pyStrip nm) = true
      · rw [if_pos h3] at hr
        subst hr
        cases hsucc
      · rw [if_neg h3] at hr
        by_cases h4 : regHas reg (pyStrip nm) = true
        · rw [if_pos h4] at hr
          subst hr
          cases hsucc
        · rw [if_neg h4] at hr
          rcases henv : env.loadResult with _ | ⟨w, sr⟩
          · rw [henv] at hr
            subst hr
            cases hsucc
          · rw [henv] at hr
            dsimp only at hr
            by_cases h5 : w.flatten.length = 0
            · rw [if_pos h5] at hr
              subst hr
              cases hsucc
            · rw [if_neg h5] at hr
              by_cases h6 : env.hasInvalidValues = true
              · rw [if_pos h6] at hr
                subst hr
                cases hsucc
              · rw [if_neg h6] at hr
                by_cases h7 : (numSamples w : ℚ) / (sr : ℚ) < 5
                · rw [if_pos h7] at hr
                  subst hr
                  cases hsucc
                · rw [if_neg h7] at hr
                  by_cases h8 : 300 < (numSamples w : ℚ) / (sr : ℚ)
                  · rw [if_pos h8] at hr
                    subst hr
                    cases hsucc
                  · rw [if_neg h8] at hr
                    by_cases h9 : maxAbs (if 1 < w.length then [meanChannels w] else w)
                        < 1/100
                    · rw [if_pos h9] at hr
                      subst hr
                      cases hsucc
                    · rw [if_neg h9] at hr
                      obtain ⟨w', ha, hb, hc, hd⟩ :=
                        resampleStage_success hres hr hsucc
                      refine ⟨ha, w', hb, ?_, hd⟩
                      rw [hc]
                      by_cases hmono : 1 < w.length
                      · rw [if_pos hmono]
                        rfl
                      · rw [if_neg hmono]
                        have hwne : w ≠ [] := by
                          intro h0
                          subst h0
                          exact h5 rfl
                        have := List.length_pos.mpr hwne
                        omega

/-- A concrete ingestion environment: a 6-second, 100 Hz, constant-½
clip, an identity resampler, and a registry-store write that succeeds or
fails according to `db`. -/
def env600 (db : Bool) : IngestEnv :=
  { fileExists := true
    loadResult := some ([List.replicate 600 ((1:ℚ)/2)], 100)
    hasInvalidValues := false
    resample := fun _ w => some w
    saveOk := true
    verifyLoad := fun w => some (w, 24000)
    dbSaveOk := db }

lemma maxAbs_rep600 : maxAbs [List.replicate 600 ((1:ℚ)/2)] = 1/2 := by
  rw [maxAbs_single_replicate]
  norm_num

lemma run600_eq (db : Bool) :
    process_audio_file (env600 db) defaultRegistry [] "/tmp/clip.wav" "alice"
      = saveStage (env600 db) defaultRegistry [] "/tmp/clip.wav" "alice"
          [List.replicate 600 (1:ℚ)]
          (([(5, Note.validating), (10, Note.loadedDuration), (15, Note.srChannels)]
             ++ [(35, Note.resampling), (40, Note.resampled)])
           ++ [(50, Note.normalizing), (60, Note.trimmingSilence),
               (60, Note.trimWarning), (80, Note.savingAudio)]) := by
  have hifw : (if 1 < ([List.replicate 600 ((1:ℚ)/2)] : Waveform).length
      then [meanChannels [List.replicate 600 ((1:ℚ)/2)]]
      else [List.replicate 600 ((1:ℚ)/2)]) = [List.replicate 600 ((1:ℚ)/2)] := by
    rw [if_neg]
    norm_num
  have hstep := process_to_resample (env600 db) defaultRegistry [] "/tmp/clip.wav"
    "alice" [List.replicate 600 ((1:ℚ)/2)] 100
    (by decide) rfl (by decide) (by decide) rfl
    (by rw [flatten_single, List.length_replicate]; norm_num)
    rfl
    (by
      rw [numSamples_single, List.length_replicate]
      push_cast
      norm_num)
    (by
      rw [numSamples_single, List.length_replicate]
      push_cast
      norm_num)
    (by
      rw [hifw, maxAbs_rep600]
      norm_num)
  rw [hifw] at hstep
  rw [maxAbs_rep600] at hstep
  rw [if_neg (by norm_num : ¬ ((1:ℚ) < 1/2)),
    if_neg (show ¬ (1 < ([List.replicate 600 ((1:ℚ)/2)] : Waveform).length) from
      by norm_num)] at hstep
  rw [hstep, resampleStage_identity _ _ _ _ _ _ _ _ _ (by norm_num) rfl]
  rw [normalizeStage, maxAbs_rep600]
  have hdiv : divEach [List.replicate 600 ((1:ℚ)/2)] (1/2)
      = [List.replicate 600 (1:ℚ)] := by
    rw [divEach_single_replicate]
    norm_num
  rw [hdiv]
  have htrim : trimSilence [List.replicate 600 (1:ℚ)]
      = ([List.replicate 600 (1:ℚ)], .failed) := by
    refine trimSilence_not_dvd ?_
    rw [flatten_single, List.length_replicate]
    norm_num
  rw [htrim]
  rfl

/-- C3: with every step succeeding except the final registry-store
write, ingestion fails with the registry-write message and the written
audio file is deleted — but the in-memory id→record mapping STILL
contains the new record (the dict insert is not rolled back), so the
registry and the filesystem disagree about which cloned voices exist. -/
theorem registry_file_divergence_on_db_failure :
    (process_audio_file (env600 false) defaultRegistry [] "/tmp/clip.wav" "alice").1.success
      = false ∧
    (process_audio_file (env600 false) defaultRegistry [] "/tmp/clip.wav" "alice").1.msg
      = .dbSaveFailed ∧
    (((process_audio_file (env600 false) defaultRegistry [] "/tmp/clip.wav" "alice").2.1).lookup
      "alice").isSome = true ∧
    ((process_audio_file (env600 false) defaultRegistry [] "/tmp/clip.wav" "alice").2.2).lookup
      (voicePathOf "alice") = none := by
  rw [run600_eq false, saveStage_eval _ _ _ _ _ _ _ rfl rfl]
  rw [if_neg (show ¬ ((env600 false).dbSaveOk = true) by decide)]
  refine ⟨rfl, rfl, ?_, lookup_fsErase_self _ _⟩
  rw [lookup_append_right (by decide)]
  simp [List.lookup]

/-- C1 witness: a concrete fully successful ingestion (6-second clip,
identity resampler, all effects succeeding) where the amended invariants
hold: the registry gains exactly the one cloned record and the persisted
file is a mono waveform stored at 24000 Hz with peak at most 1. -/
theorem ingestion_success_invariants_witness :
    (process_audio_file (env600 true) defaultRegistry [] "/tmp/clip.wav" "alice").2.1
      = defaultRegistry ++ [("alice",
        ⟨"alice", "Cloned voice from " ++ basename "/tmp/clip.wav", "cloned",
          some (voicePathOf "alice"), some (basename "/tmp/clip.wav")⟩)] ∧
    ∃ w, ((process_audio_file (env600 true) defaultRegistry []
        "/tmp/clip.wav" "alice").2.2).lookup (voicePathOf "alice")
      = some (w, 24000) ∧ w.length = 1 ∧ maxAbs w ≤ 1 :=
  ingestion_success_invariants (env600 true) defaultRegistry [] "/tmp/clip.wav"
    "alice" _
    (fun sr₀ w₀ w₁ he => by rw [Option.some.inj he])
    rfl
    (by rw [run600_eq true, saveStage_eval _ _ _ _ _ _ _ rfl rfl,
      if_pos (show (env600 true).dbSaveOk = true from rfl)])

/-- The too-short concrete run: a 10-sample clip at 24000 Hz. -/
def envShort : IngestEnv :=
  { fileExists := true
    loadResult := some ([List.replicate 10 (1 : ℚ)], 24000)
    hasInvalidValues := false
    resample := fun _ w => some w
    saveOk := true
    verifyLoad := fun w => some (w, 24000)
    dbSaveOk := true }

lemma runShort_eq :
    process_audio_file envShort defaultRegistry [] "/tmp/a.wav" "bob"
      = (⟨false, .tooShort, []⟩, defaultRegistry, []) := by
  simp only [process_audio_file]
  rw [if_neg (show ¬ (("/tmp/a.wav" : String) = "" ∨ envShort.fileExists = false) by decide)]
  rw [if_neg (show ¬ (pyStrip "bob" = "") by decide)]
  rw [if_neg (show ¬ (¬ validName (pyStrip "bob") = true) by decide)]
  rw [if_neg (show ¬ (regHas defaultRegistry (pyStrip "bob") = true) by decide)]
  rw [show envShort.loadResult = some ([List.replicate 10 (1 : ℚ)], 24000) from rfl]
  dsimp only
  rw [if_neg (show ¬ (([List.replicate 10 (1:ℚ)] : Waveform).flatten.length = 0) from by
    rw [flatten_single, List.length_replicate]; norm_num)]
  rw [if_neg (show ¬ (envShort.hasInvalidValues = true) by decide)]
  rw [if_pos (show ((numSamples [List.replicate 10 (1:ℚ)] : ℚ) / ((24000:ℕ) : ℚ) < 5) from by
    rw [numSamples_single, List.length_replicate]; push_cast; norm_num)]

/-- C4 counterexample: a too-short upload is rejected with the specific
too-short reason and untouched state, but the returned progress trace is
EMPTY — although the trace accumulated up to the failing step contains
the "(5, validating)" entry, contradicting the claim that the
accumulated (non-empty) trace is returned alongside the failure. -/
theorem validation_trace_counterexample :
    process_audio_file envShort defaultRegistry [] "/tmp/a.wav" "bob"
      = (⟨false, .tooShort, []⟩, defaultRegistry, []) := runShort_eq

/-- C4 witness: the too-short run instantiates the amended theorem — the
failure leaves an empty trace and unchanged registry and filesystem. -/
theorem validation_failure_empty_trace_witness :
    (process_audio_file envShort defaultRegistry [] "/tmp/a.wav" "bob").1.trace = [] ∧
    (process_audio_file envShort defaultRegistry [] "/tmp/a.wav" "bob").2.1
      = defaultRegistry ∧
    (process_audio_file envShort defaultRegistry [] "/tmp/a.wav" "bob").2.2 = [] :=
  validation_failure_empty_trace envShort defaultRegistry [] "/tmp/a.wav" "bob" _
    rfl
    (by rw [runShort_eq])
    (by rw [runShort_eq]; decide)
    (by rw [runShort_eq]; decide)
    (by rw [runShort_eq]; decide)


/-! ## Claim C1 counterexample — the trim window can cut away the peak -/

/-- A 120832-sample (≈5.03 s at 24 kHz) clip: a loud constant-¼ first
frame, 116 silent frames, and a final frame whose very last sample ½ is
the global peak. -/
def u1 : Chan :=
  List.replicate 1024 ((1:ℚ)/4)
    ++ (List.replicate 118784 (0:ℚ) ++ (List.replicate 1023 (0:ℚ) ++ [(1:ℚ)/2]))
/-- `u1` after peak normalization (divide by the peak ½). -/
def v1 : Chan :=
  List.replicate 1024 ((1:ℚ)/2)
    ++ (List.replicate 118784 (0:ℚ) ++ (List.replicate 1023 (0:ℚ) ++ [(1:ℚ)]))
/-- What the trim step keeps of `v1`: samples `[0, 60416)` — the peak
sample at index 120831 is cut away. -/
def t1row : Chan := List.replicate 1024 ((1:ℚ)/2) ++ List.replicate 59392 (0:ℚ)

lemma u1_length : u1.length = 120832 := by
  rw [u1, List.length_append, List.length_append, List.length_append,
    List.length_replicate, List.length_replicate, List.length_replicate,
    List.length_singleton]

lemma v1_length : v1.length = 120832 := by
  rw [v1, List.length_append, List.length_append, List.length_append,
    List.length_replicate, List.length_replicate, List.length_replicate,
    List.length_singleton]

lemma maxAbs_u1 : maxAbs [u1] = 1/2 := by
  rw [maxAbs, flatten_single, u1]
  simp only [List.map_append, List.map_replicate, List.map_cons, List.map_nil,
    List.foldr_append, List.foldr_cons, List.foldr_nil, foldr_max_replicate]
  norm_num
  rw [abs_of_nonneg (by norm_num : (0:ℚ) ≤ 1/4), abs_of_nonneg (by norm_num : (0:ℚ) ≤ 1/2)]
  rw [max_eq_right (by norm_num : (1:ℚ)/4 ≤ 1/2)]

lemma maxAbs_t1row : maxAbs [t1row] = 1/2 := by
  rw [maxAbs, flatten_single, t1row]
  simp only [List.map_append, List.map_replicate,
    List.foldr_append, foldr_max_replicate]
  norm_num

lemma divEach_u1 : divEach [u1] ((1:ℚ)/2) = [v1] := by
  rw [divEach, u1, v1]
  simp only [List.map_cons, List.map_nil, List.map_append, List.map_replicate]
  norm_num

lemma v1_split : v1 = List.replicate (1 * 1024) ((1:ℚ)/2)
    ++ (List.replicate (116 * 1024) (0:ℚ)
      ++ (List.replicate 1023 (0:ℚ) ++ [(1:ℚ)])) := by
  rw [v1]

lemma rmsSqList_v1 :
    rmsSqList v1 = (1/4) :: (List.replicate 116 (0:ℚ) ++ [1/1024]) := by
  rw [rmsSqList, v1_split, toFrames_replicate_append, toFrames_replicate_append,
    toFrames_eq_single (by
      rw [List.length_append, List.length_replicate, List.length_singleton])]
  simp only [List.map_append, List.map_replicate, List.map_cons, List.map_nil,
    List.replicate_one, sumSq_replicate, sumSq_append]
  rw [show sumSq [(1:ℚ)] = 1 from by rw [sumSq]; norm_num]
  norm_num

lemma maxRmsSq_v1 : maxRmsSq v1 = 1/4 := by
  rw [maxRmsSq, rmsSqList_v1]
  rw [List.foldr_cons, List.foldr_append, foldr_max_replicate]
  norm_num

lemma mask_v1 :
    nonSilentMask v1 = true :: (List.replicate 116 false ++ [true]) := by
  rw [nonSilentMask, rmsSqList_v1, maxRmsSq_v1]
  simp only [List.map_cons, List.map_append, List.map_replicate, List.map_nil]
  norm_num

lemma take_v1 : v1.take 60416 = t1row := by
  rw [v1, t1row, List.take_append_eq_append_take, List.take_replicate,
    List.length_replicate, List.take_append_eq_append_take, List.take_replicate,
    List.length_replicate]
  norm_num

lemma trimSilence_v1 : trimSilence [v1] = ([t1row], .trimmed) := by
  have hguard : ¬ (¬ (1024 ∣ v1.length) ∨ v1.length = 0) := by
    rw [v1_length]
    push_neg
    norm_num
  simp only [trimSilence, flatten_single, if_neg hguard, mask_v1]
  rw [if_pos (show (true :: (List.replicate 116 false ++ [true])).any id = true from rfl)]
  rw [show List.findIdx id (true :: (List.replicate 116 false ++ [true])) = 0 from rfl]
  rw [show (true :: (List.replicate 116 false ++ [true])).reverse
      = true :: (List.replicate 116 false ++ [true]) from by
    simp only [List.reverse_cons, List.reverse_append, List.reverse_replicate,
      List.reverse_nil, List.nil_append, List.cons_append, List.append_assoc,
      List.append_nil]]
  rw [show List.findIdx id (true :: (List.replicate 116 false ++ [true])) = 0 from rfl]
  rw [show (true :: (List.replicate 116 false ++ [true])).length = 118 from by
    rw [List.length_cons, List.length_append, List.length_replicate,
      List.length_singleton]]
  rw [numSamples_single, v1_length]
  simp only [List.map_cons, List.map_nil]
  norm_num [take_v1]

/-- The environment of the counterexample run: every external effect
succeeds, the clip is `u1` already at 24000 Hz. -/
def env1 : IngestEnv :=
  { fileExists := true
    loadResult := some ([u1], 24000)
    hasInvalidValues := false
    resample := fun _ w => some w
    saveOk := true
    verifyLoad := fun w => some (w, 24000)
    dbSaveOk := true }

lemma run1_eq :
    process_audio_file env1 defaultRegistry [] "/tmp/clip.wav" "alice"
      = saveStage env1 defaultRegistry [] "/tmp/clip.wav" "alice" [t1row]
          ([(5, Note.validating), (10, Note.loadedDuration), (15, Note.srChannels)]
           ++ [(50, Note.normalizing), (60, Note.trimmingSilence),
               (65, Note.trimmedAmounts), (80, Note.savingAudio)]) := by
  have hifw : (if 1 < ([u1] : Waveform).length then [meanChannels [u1]] else [u1])
      = [u1] := by
    rw [if_neg]
    norm_num
  have hstep := process_to_resample env1 defaultRegistry [] "/tmp/clip.wav" "alice"
    [u1] 24000 (by decide) rfl (by decide) (by decide) rfl
    (by rw [flatten_single, u1_length]; norm_num)
    rfl
    (by rw [numSamples_single, u1_length]; push_cast; norm_num)
    (by rw [numSamples_single, u1_length]; push_cast; norm_num)
    (by rw [hifw, maxAbs_u1]; norm_num)
  rw [hifw, maxAbs_u1] at hstep
  rw [if_neg (by norm_num : ¬ ((1:ℚ) < 1/2)),
    if_neg (show ¬ (1 < ([u1] : Waveform).length) from by norm_num)] at hstep
  rw [hstep, resampleStage_at_24000]
  rw [normalizeStage, maxAbs_u1, divEach_u1, trimSilence_v1]
  rfl

/-- C1 counterexample: this ingestion SUCCEEDS, yet the persisted
waveform has maximum absolute amplitude ½, not 1.0 — the loud first
frame and the peak-bearing last frame are both above threshold, so the
code keeps `[0*512, min(118*512, 120832)) = [0, 60416)`, which cuts away
the peak sample at index 120831. -/
theorem ingestion_peak_counterexample :
    (process_audio_file env1 defaultRegistry [] "/tmp/clip.wav" "alice").1.success
      = true ∧
    ((process_audio_file env1 defaultRegistry [] "/tmp/clip.wav" "alice").2.2).lookup
        (voicePathOf "alice") = some ([t1row], 24000) ∧
    maxAbs [t1row] = 1/2 ∧ ((1:ℚ)/2) ≠ 1 := by
  rw [run1_eq, saveStage_eval _ _ _ _ _ _ _ rfl rfl,
    if_pos (show env1.dbSaveOk = true from rfl)]
  refine ⟨rfl, ?_, maxAbs_t1row, by norm_num⟩
  exact lookup_fsWrite_self _ _ _
